import Mathlib

/-!
# Verification of the ircrobots connection core (`src/ircrobots/server.py`)

Shallow embedding of the capability-negotiation / SASL / wait-registry /
write-queue logic of `Server` in `server.py`, together with theorems
checking the natural-language specification against it.

Conventions:
* `Line` embeds `irctokens.Line` restricted to the fields the core reads
  (`command`, `params`).
* Coroutine methods that `await self.wait_for(...)` are embedded as pure
  functions taking the list of lines successively returned by those waits
  (the reply transcript); `none` models an execution that cannot finish on
  the given transcript (the wait suspends forever, or the source would hit
  an `IndexError` on a malformed reply).
* Components imported from modules of this repository that are not under
  `src/` (`.matching`, `.interface`, `.ircv3`, and connection teardown)
  are modelled from the spec; each such definition says so in its doc
  comment.
-/

/-- Embeds `irctokens.Line` (external collaborator): a structured protocol
message with a command and an ordered parameter list. -/
structure Line where
  command : String
  params  : List String
deriving DecidableEq, Repr

/-- Embeds `irctokens.build`: construct a `Line` from command and params. -/
def build (command : String) (params : List String) : Line :=
  ⟨command, params⟩

/-- Modelled from the spec: parameter patterns of `.matching` (module not
under `src/`): "each parameter pattern is one of: literal equality, any
value" (`Literal`, `ParamAny`). -/
inductive ParamPattern where
  | literal (s : String)
  | any
deriving DecidableEq, Repr

/-- Does a parameter pattern accept a parameter string? -/
def ParamPattern.accepts : ParamPattern → String → Bool
  | .literal s, p => s == p
  | .any, _ => true

/-- Modelled from the spec: matchers of `.matching` (module not under
`src/`): `Response(command, paramPatterns, errors)` matches a line whose
command equals the expected command and whose parameters match the ordered
patterns, or whose command is in the designated error-numeric set;
`Numerics(codes)` matches a line whose command is in the code set. -/
inductive BaseResponse where
  | response (command : String) (params : List ParamPattern) (errors : List String)
  | numerics (codes : List String)
deriving DecidableEq, Repr

/-- Pointwise structural parameter match (same length, each pattern
accepts the corresponding parameter). -/
def paramsAccept : List ParamPattern → List String → Bool
  | [], [] => true
  | pat :: pats, p :: ps => pat.accepts p && paramsAccept pats ps
  | _, _ => false

/-- Modelled from the spec: `BaseResponse.match` of `.matching`. -/
def BaseResponse.matches : BaseResponse → Line → Bool
  | .response cmd pats errs, l =>
      (l.command == cmd && paramsAccept pats l.params) || errs.contains l.command
  | .numerics codes, l => codes.contains l.command

/-- A wait-registry entry: a matcher paired with the identifier of its
one-shot `Future` (embeds the `Tuple[BaseResponse, Future]` entries of
`Server._wait_for`). -/
structure WaitEntry where
  matcher : BaseResponse
  fid     : Nat
deriving DecidableEq, Repr

/-- Embeds the wait-resolution loop of `Server._on_read_line`
(server.py lines 90–95): scan the registry in registration order, pop the
first entry whose matcher matches the line and fulfil its future with the
line, resolving at most one entry.  Returns the remaining registry and the
resolved entry, if any. -/
def resolveFirst : List WaitEntry → Line → List WaitEntry × Option WaitEntry
  | [], _ => ([], none)
  | e :: rest, l =>
    if e.matcher.matches l then
      (rest, some e)
    else
      let r := resolveFirst rest l
      (e :: r.1, r.2)

/-- Iterates `resolveFirst` over a sequence of inbound lines, returning the
final registry and the list of entries resolved (in resolution order). -/
def processLines : List WaitEntry → List Line → List WaitEntry × List WaitEntry
  | reg, [] => (reg, [])
  | reg, l :: ls =>
    let step := resolveFirst reg l
    let rest := processLines step.1 ls
    (rest.1, step.2.toList ++ rest.2)

lemma resolveFirst_no_match (reg : List WaitEntry) (l : Line)
    (h : ∀ e ∈ reg, e.matcher.matches l = false) :
    resolveFirst reg l = (reg, none) := by
  induction reg with
  | nil => rfl
  | cons e rest ih =>
    have he : e.matcher.matches l = false := h e (List.mem_cons_self e rest)
    simp only [resolveFirst, he, Bool.false_eq_true, if_false]
    have := ih (fun e' h' => h e' (List.mem_cons_of_mem e h'))
    simp [this]

lemma resolveFirst_first_match (pre post : List WaitEntry) (e : WaitEntry) (l : Line)
    (hpre : ∀ e' ∈ pre, e'.matcher.matches l = false)
    (he : e.matcher.matches l = true) :
    resolveFirst (pre ++ e :: post) l = (pre ++ post, some e) := by
  induction pre with
  | nil => simp [resolveFirst, he]
  | cons x rest ih =>
    have hx : x.matcher.matches l = false := hpre x (List.mem_cons_self x rest)
    have := ih (fun e' h' => hpre e' (List.mem_cons_of_mem x h'))
    simp only [List.cons_append, resolveFirst, hx, Bool.false_eq_true, if_false]
    simp only [List.append_eq, this]

/-- Structure of one resolution step: either nothing matched and the
registry is unchanged, or the registry splits as `pre ++ e :: post` with the
resolved entry `e` removed. -/
lemma resolveFirst_cases (reg : List WaitEntry) (l : Line) :
    (resolveFirst reg l = (reg, none)) ∨
    ∃ pre e post, reg = pre ++ e :: post ∧
      resolveFirst reg l = (pre ++ post, some e) := by
  induction reg with
  | nil => left; rfl
  | cons x rest ih =>
    by_cases hx : x.matcher.matches l = true
    · right
      exact ⟨[], x, rest, by simp, by simp [resolveFirst, hx]⟩
    · have hx' : x.matcher.matches l = false := by
        cases h : x.matcher.matches l
        · rfl
        · exact absurd h hx
      rcases ih with h | ⟨pre, e, post, hsplit, hres⟩
      · left
        simp [resolveFirst, hx', h]
      · right
        refine ⟨x :: pre, e, post, by simp [hsplit], ?_⟩
        simp [resolveFirst, hx', hres]

/-- The registry after a step is a sublist of the registry before. -/
lemma resolveFirst_sublist (reg : List WaitEntry) (l : Line) :
    (resolveFirst reg l).1.Sublist reg := by
  rcases resolveFirst_cases reg l with h | ⟨pre, e, post, hsplit, hres⟩
  · simp [h]
  · rw [hres, hsplit]
    exact List.Sublist.append (List.Sublist.refl pre) (List.sublist_cons_self e post)

/-- A resolved entry came from the registry; the rest of the registry plus
the resolved entry is a permutation of the original registry. -/
lemma resolveFirst_some_perm (reg : List WaitEntry) (l : Line) (e : WaitEntry)
    (h : (resolveFirst reg l).2 = some e) :
    (e :: (resolveFirst reg l).1).Perm reg := by
  rcases resolveFirst_cases reg l with h' | ⟨pre, e', post, hsplit, hres⟩
  · rw [h'] at h; simp at h
  · rw [hres] at h
    simp at h
    subst h
    rw [hres, hsplit]
    simpa using List.perm_middle.symm

/-- Entries resolved over a line sequence all come from the initial registry. -/
lemma processLines_resolved_mem (reg : List WaitEntry) (ls : List Line) :
    ∀ x ∈ (processLines reg ls).2, x ∈ reg := by
  induction ls generalizing reg with
  | nil => simp [processLines]
  | cons l ls ih =>
    intro x hx
    simp only [processLines, List.mem_append] at hx
    rcases hx with hx | hx
    · rcases resolveFirst_cases reg l with h | ⟨pre, e, post, hsplit, hres⟩
      · rw [h] at hx; simp at hx
      · rw [hres] at hx
        simp at hx
        subst hx
        rw [hsplit]
        exact List.mem_append.mpr (Or.inr (List.mem_cons_self _ _))
    · have := ih (resolveFirst reg l).1 x hx
      exact List.Sublist.mem this (resolveFirst_sublist reg l)

/-- The registry remaining after a line sequence is a sublist of the initial
registry. -/
lemma processLines_final_sublist (reg : List WaitEntry) (ls : List Line) :
    (processLines reg ls).1.Sublist reg := by
  induction ls generalizing reg with
  | nil => simp [processLines]
  | cons l ls ih =>
    exact (ih (resolveFirst reg l).1).trans (resolveFirst_sublist reg l)

/-- At-most-once resolution: over any line sequence, a registry without
duplicate entries resolves no entry twice, and a resolved entry is no longer
pending. -/
lemma processLines_at_most_once (reg : List WaitEntry) (ls : List Line)
    (h : reg.Nodup) :
    ((processLines reg ls).2).Nodup ∧
    ∀ x ∈ (processLines reg ls).2, x ∉ (processLines reg ls).1 := by
  induction ls generalizing reg with
  | nil => simp [processLines]
  | cons l ls ih =>
    rcases hcase : (resolveFirst reg l).2 with _ | e
    · have hfst : (resolveFirst reg l).1 = reg := by
        rcases resolveFirst_cases reg l with h' | ⟨pre, e', post, hsplit, hres⟩
        · rw [h']
        · rw [hres] at hcase; simp at hcase
      have := ih reg h
      simp only [processLines, hcase, Option.toList, List.nil_append, hfst]
      exact this
    · have hperm : (e :: (resolveFirst reg l).1).Perm reg :=
        resolveFirst_some_perm reg l e hcase
      have hnd : (e :: (resolveFirst reg l).1).Nodup := hperm.nodup_iff.mpr h
      have he_not : e ∉ (resolveFirst reg l).1 := (List.nodup_cons.mp hnd).1
      have hnd' : (resolveFirst reg l).1.Nodup := (List.nodup_cons.mp hnd).2
      obtain ⟨ih1, ih2⟩ := ih (resolveFirst reg l).1 hnd'
      constructor
      · simp only [processLines, hcase, Option.toList, List.singleton_append]
        refine List.nodup_cons.mpr ⟨?_, ih1⟩
        intro hmem
        exact he_not (processLines_resolved_mem _ _ e hmem)
      · intro x hx
        simp only [processLines, hcase, Option.toList, List.singleton_append,
          List.mem_cons] at hx ⊢
        rcases hx with rfl | hx
        · intro hmem
          exact he_not
            (List.Sublist.mem hmem (processLines_final_sublist _ ls))
        · exact ih2 x hx

/-- An entry that does not match the line survives the step. -/
lemma resolveFirst_mem_of_no_match (reg : List WaitEntry) (l : Line)
    (e : WaitEntry) (hmem : e ∈ reg) (hno : e.matcher.matches l = false) :
    e ∈ (resolveFirst reg l).1 := by
  induction reg with
  | nil => simp at hmem
  | cons x rest ih =>
    by_cases hx : x.matcher.matches l = true
    · simp only [resolveFirst, hx, if_true]
      rcases List.mem_cons.mp hmem with rfl | h
      · rw [hx] at hno; exact absurd hno (by simp)
      · exact h
    · simp only [resolveFirst, hx, if_false]
      rcases List.mem_cons.mp hmem with rfl | h
      · exact List.mem_cons_self _ _
      · exact List.mem_cons_of_mem _ (ih h)

/-- C1: For every inbound line, the read loop (`Server._on_read_line`) scans
the wait registry in registration order and resolves exactly the first entry
whose matcher matches that line, removing it from the registry and fulfilling
its result with that line; at most one entry is resolved per inbound line
(the entries after the first match, including a second matching wait M2, all
remain pending), and over any sequence of inbound lines every wait entry is
resolved at most once. -/
theorem wait_registry_resolves_first_match_once
    (pre post : List WaitEntry) (e : WaitEntry) (l : Line)
    (hpre : ∀ e' ∈ pre, e'.matcher.matches l = false)
    (he : e.matcher.matches l = true) :
    resolveFirst (pre ++ e :: post) l = (pre ++ post, some e) ∧
    (∀ reg ls, reg.Nodup →
      ((processLines reg ls).2).Nodup ∧
      ∀ x ∈ (processLines reg ls).2, x ∉ (processLines reg ls).1) := by
  refine ⟨resolveFirst_first_match pre post e l hpre he, ?_⟩
  intro reg ls h
  exact processLines_at_most_once reg ls h

/-- Witness for C1: two waits on numeric 903, both matching the inbound line
`903`; only the first-registered one resolves, the second remains pending. -/
theorem wait_registry_resolves_first_match_once_witness :
    resolveFirst [⟨.numerics ["903"], 0⟩, ⟨.numerics ["903"], 1⟩] ⟨"903", ["x"]⟩
      = ([⟨.numerics ["903"], 1⟩], some ⟨.numerics ["903"], 0⟩) :=
  (wait_registry_resolves_first_match_once
    [] [⟨.numerics ["903"], 1⟩] ⟨.numerics ["903"], 0⟩ ⟨"903", ["x"]⟩
    (by intro e' h'; simp at h') (by decide)).1

/-! ## Capability negotiation (`Server._cap_ls_done`, `Server._cap_ack`) -/

/-- Observable actions of one `Server._cap_ack` invocation, in execution
order: a full SASL authentication run (awaited inline), the removal of the
message's tokens from `_requested_caps`, and the sending of `CAP END`. -/
inductive CapOut where
  | saslAttemptUserpass
  | saslAttemptExternal
  | removeTokens
  | capEnd
deriving DecidableEq, Repr

/-- Embeds `Server._cap_ack` (server.py lines 147–160) as a step on
`_requested_caps`, instrumented with the trace of its observable actions.
`saslConfigured` embeds `not self.params.sasl is None`, `saslAgreed` embeds
`self.cap_agreed(CAP_SASL)`, `mech` the configured SASL mechanism string,
`tokens` the ACK/NAK message's token list (`emit.tokens or []`).  The Python
`if cap in list: list.remove(cap)` is `List.erase` (remove first occurrence,
no-op when absent). -/
def capAck (saslConfigured saslAgreed : Bool) (mech : String)
    (req tokens : List String) : List CapOut × List String :=
  let saslPart :=
    if saslConfigured && saslAgreed then
      if mech = "USERPASS" then [CapOut.saslAttemptUserpass]
      else if mech = "EXTERNAL" then [CapOut.saslAttemptExternal]
      else []
    else []
  let req2 := tokens.foldl (fun acc cap => acc.erase cap) req
  let endPart := if req2.isEmpty then [CapOut.capEnd] else []
  (saslPart ++ CapOut.removeTokens :: endPart, req2)

/-- Folds `capAck` over a sequence of ACK/NAK messages, concatenating the
traces. -/
def capAckSeq (saslConfigured saslAgreed : Bool) (mech : String) :
    List String → List (List String) → List CapOut × List String
  | req, [] => ([], req)
  | req, ts :: rest =>
    let step := capAck saslConfigured saslAgreed mech req ts
    let restR := capAckSeq saslConfigured saslAgreed mech step.2 rest
    (step.1 ++ restR.1, restR.2)

/-- The successive values of `_requested_caps` after each ACK/NAK message. -/
def ackStates : List String → List (List String) → List (List String)
  | _, [] => []
  | req, ts :: rest =>
    let req2 := ts.foldl (fun acc cap => acc.erase cap) req
    req2 :: ackStates req2 rest

lemma capAck_snd (c a : Bool) (mech : String) (req tokens : List String) :
    (capAck c a mech req tokens).2
      = tokens.foldl (fun acc cap => acc.erase cap) req := rfl

lemma foldl_erase_sublist (tokens : List String) :
    ∀ req : List String,
      (tokens.foldl (fun acc cap => acc.erase cap) req).Sublist req := by
  induction tokens with
  | nil => intro req; simp
  | cons t ts ih =>
    intro req
    exact (ih (req.erase t)).trans (List.erase_sublist t req)

lemma capAck_count_capEnd (c a : Bool) (mech : String) (req tokens : List String) :
    (capAck c a mech req tokens).1.count CapOut.capEnd
      = if (capAck c a mech req tokens).2.isEmpty then 1 else 0 := by
  by_cases h1 : (c && a) = true <;>
    by_cases h2 : mech = "USERPASS" <;>
      by_cases h3 : mech = "EXTERNAL" <;>
        by_cases h4 : (tokens.foldl (fun acc cap => acc.erase cap) req).isEmpty = true <;>
          simp [capAck, h1, h2, h3, h4, List.count_append, List.count_cons]

lemma capAckSeq_count_capEnd (c a : Bool) (mech : String) :
    ∀ (msgs : List (List String)) (req : List String),
      (capAckSeq c a mech req msgs).1.count CapOut.capEnd
        = (ackStates req msgs).countP (fun s => s.isEmpty) := by
  intro msgs
  induction msgs with
  | nil => intro req; simp [capAckSeq, ackStates]
  | cons ts rest ih =>
    intro req
    simp only [capAckSeq, ackStates, List.count_append, List.countP_cons,
      capAck_count_capEnd, capAck_snd, ih]
    by_cases h : ((ts.foldl (fun acc cap => acc.erase cap) req).isEmpty = true) <;>
      simp [h, Nat.add_comm]

lemma capAck_count_userpass (req tokens : List String) :
    (capAck true true "USERPASS" req tokens).1.count CapOut.saslAttemptUserpass
      = 1 := by
  by_cases h : (tokens.foldl (fun acc cap => acc.erase cap) req).isEmpty = true <;>
    simp [capAck, h, List.count_append, List.count_cons]

lemma capAck_count_external (req tokens : List String) :
    (capAck true true "EXTERNAL" req tokens).1.count CapOut.saslAttemptExternal
      = 1 := by
  by_cases h : (tokens.foldl (fun acc cap => acc.erase cap) req).isEmpty = true <;>
    simp [capAck, h, List.count_append, List.count_cons]

lemma capAckSeq_count_userpass :
    ∀ (msgs : List (List String)) (req : List String),
      (capAckSeq true true "USERPASS" req msgs).1.count CapOut.saslAttemptUserpass
        = msgs.length := by
  intro msgs
  induction msgs with
  | nil => intro req; simp [capAckSeq]
  | cons ts rest ih =>
    intro req
    simp [capAckSeq, List.count_append, capAck_count_userpass, ih, Nat.add_comm]

lemma capAckSeq_count_external :
    ∀ (msgs : List (List String)) (req : List String),
      (capAckSeq true true "EXTERNAL" req msgs).1.count CapOut.saslAttemptExternal
        = msgs.length := by
  intro msgs
  induction msgs with
  | nil => intro req; simp [capAckSeq]
  | cons ts rest ih =>
    intro req
    simp [capAckSeq, List.count_append, capAck_count_external, ih, Nat.add_comm]

/-- C2 counterexample: with `_requested_caps = ["a"]`, the ACK sequence
`[ACK a, ACK a]` (the server repeats an acknowledgement after negotiation
has completed) makes `_cap_ack` send `CAP END` twice, not exactly once:
lines 159–160 re-send `CAP END` on every ACK/NAK handled while
`_requested_caps` is empty. -/
theorem cap_end_not_exactly_once_counterexample :
    (capAckSeq false false "" ["a"] [["a"], ["a"]]).1.count CapOut.capEnd = 2 ∧
    ¬ (capAckSeq false false "" ["a"] [["a"], ["a"]]).1.count CapOut.capEnd = 1 := by
  decide

/-- C2 (amended): across any sequence of CAP ACK/NAK messages processed
after CAP LS completion, `_requested_caps` only shrinks (each step's result
is a sublist of its input), and `CAP END` is sent by a step exactly when
`_requested_caps` is empty after that step's removals — hence exactly once
over sequences in which exactly one message leaves it empty, but re-sent on
every further ACK/NAK processed after it has emptied. -/
theorem requested_caps_shrink_cap_end_iff_empty :
    (∀ (c a : Bool) (mech : String) (req tokens : List String),
       ((capAck c a mech req tokens).2).Sublist req) ∧
    (∀ (c a : Bool) (mech : String) (req tokens : List String),
       (capAck c a mech req tokens).1.count CapOut.capEnd
         = if (capAck c a mech req tokens).2.isEmpty then 1 else 0) ∧
    (∀ (c a : Bool) (mech : String) (req : List String)
       (msgs : List (List String)),
       (capAckSeq c a mech req msgs).1.count CapOut.capEnd
         = (ackStates req msgs).countP (fun s => s.isEmpty)) := by
  refine ⟨?_, capAck_count_capEnd, ?_⟩
  · intro c a mech req tokens
    rw [capAck_snd]
    exact foldl_erase_sublist tokens req
  · intro c a mech req msgs
    exact capAckSeq_count_capEnd c a mech msgs req

/-- C10: every `_cap_ack` invocation with SASL params configured and the
SASL capability agreed runs a full SASL authentication attempt (per the
configured mechanism) before removing the message's tokens from
`_requested_caps` (lines 148–154 precede lines 156–158), so over a sequence
of ACK/NAK messages authentication is attempted once per message, not once
per negotiation. -/
theorem sasl_attempted_once_per_ack_message :
    (∀ req tokens : List String,
      (capAck true true "USERPASS" req tokens).1.take 2
        = [CapOut.saslAttemptUserpass, CapOut.removeTokens]) ∧
    (∀ req tokens : List String,
      (capAck true true "EXTERNAL" req tokens).1.take 2
        = [CapOut.saslAttemptExternal, CapOut.removeTokens]) ∧
    (∀ (req : List String) (msgs : List (List String)),
      (capAckSeq true true "USERPASS" req msgs).1.count CapOut.saslAttemptUserpass
        = msgs.length) ∧
    (∀ (req : List String) (msgs : List (List String)),
      (capAckSeq true true "EXTERNAL" req msgs).1.count CapOut.saslAttemptExternal
        = msgs.length) := by
  refine ⟨?_, ?_, ?_, ?_⟩
  · intro req tokens
    by_cases h : (tokens.foldl (fun acc cap => acc.erase cap) req).isEmpty = true <;>
      simp [capAck, h]
  · intro req tokens
    by_cases h : (tokens.foldl (fun acc cap => acc.erase cap) req).isEmpty = true <;>
      simp [capAck, h]
  · intro req msgs
    exact capAckSeq_count_userpass msgs req
  · intro req msgs
    exact capAckSeq_count_external msgs req

/-- The server's advertised capabilities (`self.available_caps` from the
external state-tracking library): name/value pairs, value `""` when the
capability is advertised without a value. -/
abbrev CapMap := List (String × String)

/-- Modelled from the spec: `Capability` of `.ircv3` (module not under
`src/`): its `available` lookup returns the token under which the server
advertises the capability (to be placed in `CAP REQ` and
`_requested_caps`), or `none` when the server does not advertise it. -/
structure Capability where
  available : CapMap → Option String

/-- Modelled from the spec: `CAP_SASL` of `.ircv3`: the SASL capability,
advertised under the token "sasl". -/
def CAP_SASL : Capability :=
  ⟨fun avail => if avail.any (fun p => p.1 = "sasl") then some "sasl" else none⟩

/-- Embeds lines 136–143 of `Server._cap_ls_done`: the request list is the
built-in capabilities, then the queued capabilities, then `CAP_SASL` iff
SASL params are configured, filtered (Python `filter(bool, ...)`: dropping
`None` and `""`) to those the server advertises. -/
def capRequestList (builtin queued : List Capability) (saslConfigured : Bool)
    (avail : CapMap) : List String :=
  let caps := builtin ++ queued ++ (if saslConfigured then [CAP_SASL] else [])
  caps.filterMap (fun c =>
    match c.available avail with
    | some s => if s = "" then none else some s
    | none => none)

/-- Embeds lines 142–146 of `Server._cap_ls_done`: if the filtered request
list is non-empty, remember it as `_requested_caps` and send one `CAP REQ`
with the tokens space-joined; otherwise send nothing and leave
`_requested_caps` unchanged.  Returns (lines sent, `_requested_caps`). -/
def capLsDone (builtin queued : List Capability) (saslConfigured : Bool)
    (avail : CapMap) (req : List String) : List Line × List String :=
  let reqList := capRequestList builtin queued saslConfigured avail
  if reqList.isEmpty then ([], req)
  else ([build "CAP" ["REQ", String.intercalate " " reqList]], reqList)

/-- C7: on CAP LS completion, if the request list filtered to the server's
advertised capabilities is empty, negotiation completes without sending
either `CAP REQ` or `CAP END` (no line at all is sent); if it is non-empty,
exactly one `CAP REQ` is sent with all filtered tokens space-joined, and
that token list becomes `_requested_caps`. -/
theorem cap_ls_done_req_iff_filtered_nonempty
    (builtin queued : List Capability) (saslConfigured : Bool)
    (avail : CapMap) (req : List String) :
    (capRequestList builtin queued saslConfigured avail = [] →
      capLsDone builtin queued saslConfigured avail req = ([], req)) ∧
    (capRequestList builtin queued saslConfigured avail ≠ [] →
      capLsDone builtin queued saslConfigured avail req
        = ([build "CAP" ["REQ",
             String.intercalate " " (capRequestList builtin queued saslConfigured avail)]],
           capRequestList builtin queued saslConfigured avail)) := by
  constructor
  · intro h
    simp [capLsDone, h]
  · intro h
    rw [capLsDone]
    simp only [List.isEmpty_iff]
    rw [if_neg h]

/-- Witness for C7: a server advertising nothing yields no sent line and an
unchanged `_requested_caps`; a server advertising capability "a" yields
exactly one `CAP REQ a` whose token list becomes `_requested_caps`. -/
theorem cap_ls_done_req_iff_filtered_nonempty_witness :
    capLsDone [⟨fun _ => none⟩] [] false [] ["x"] = ([], ["x"]) ∧
    capLsDone [⟨fun _ => some "a"⟩] [] false [] ["x"]
      = ([build "CAP" ["REQ", "a"]], ["a"]) := by
  constructor
  · exact (cap_ls_done_req_iff_filtered_nonempty
      [⟨fun _ => none⟩] [] false [] ["x"]).1 rfl
  · have h := (cap_ls_done_req_iff_filtered_nonempty
      [⟨fun _ => some "a"⟩] [] false [] ["x"]).2 (by decide)
    simpa using h

/-! ## SASL authentication (`Server.sasl_external`, `Server.sasl_userpass`) -/

/-- Embeds the `SASLResult` enum of server.py (lines 29–32). -/
inductive SASLResult where
  | success
  | failure
  | already
deriving DecidableEq, Repr

/-- Embeds `SASLUnkownMechanismError` (sic, lines 36–37), raised by the SASL
flows; it carries the server-advertised mechanism list that the source
interpolates into the exception message. -/
inductive SASLError where
  | unknownMechanism (serverMechs : List String)
deriving DecidableEq, Repr

/-- Embeds `SASL_USERPASS_MECHANISMS` (lines 22–27): the client-side
mechanism priority order. -/
def SASL_USERPASS_MECHANISMS : List String :=
  ["SCRAM-SHA-512", "SCRAM-SHA-256", "SCRAM-SHA-1", "PLAIN"]

/-- Splits a character list at every comma, keeping empty pieces. -/
def splitCommaAux : List Char → List (List Char)
  | [] => [[]]
  | c :: rest =>
    match splitCommaAux rest with
    | [] => [[]]
    | h :: t => if c = ',' then [] :: h :: t else (c :: h) :: t

/-- Embeds Python `str.split(",")` as the source applies it to SASL
mechanism lists: split at every comma, keeping empty pieces (so
`splitComma "" = [""]`), matching `"a,b".split(",") = ["a","b"]`. -/
def splitComma (s : String) : List String :=
  (splitCommaAux s.toList).map (fun cs => String.mk cs)

/-- Embeds the nested `_common` of `Server.sasl_userpass` (lines 187–195):
the first mechanism of our priority list present in the server's list, or
the unsupported-mechanism fault when none is. -/
def _common (server_mechs : List String) : Except SASLError String :=
  match SASL_USERPASS_MECHANISMS.find? (fun m => server_mechs.contains m) with
  | some m => Except.ok m
  | none => Except.error (SASLError.unknownMechanism server_mechs)

/-- Embeds lines 197–204 of `Server.sasl_userpass`: initial mechanism
selection.  `saslValue` is `self.available_caps["sasl"]` (the capability's
negotiated value, `none` on a pre-CAP-3.2 server); when present it is
comma-split and fed to `_common`, otherwise the head of
`SASL_USERPASS_MECHANISMS` is taken (`SASL_USERPASS_MECHANISMS[0]`; the
literal list is non-empty, so the `headD` default is never used). -/
def userpassInitialMech (saslValue : Option String) : Except SASLError String :=
  match saslValue with
  | some v => _common (splitComma v)
  | none => Except.ok (SASL_USERPASS_MECHANISMS.headD "")

/-- UTF-8 encoding of one character (byte values), as `str.encode("utf8")`
produces. -/
def utf8EncodeChar (c : Char) : List Nat :=
  let n := c.toNat
  if n < 0x80 then [n]
  else if n < 0x800 then [0xC0 + n / 64, 0x80 + n % 64]
  else if n < 0x10000 then
    [0xE0 + n / 4096, 0x80 + n / 64 % 64, 0x80 + n % 64]
  else
    [0xF0 + n / 262144, 0x80 + n / 4096 % 64, 0x80 + n / 64 % 64, 0x80 + n % 64]

/-- UTF-8 byte sequence of a string. -/
def utf8Bytes (s : String) : List Nat :=
  (s.toList.map utf8EncodeChar).flatten

/-- The base64 alphabet. -/
def base64Alphabet : List Char :=
  "ABCDEFGHIJKLMNOPQRSTUVWXYZabcdefghijklmnopqrstuvwxyz0123456789+/".toList

/-- Digit `n` (0–63) of the base64 alphabet. -/
def b64Char (n : Nat) : Char :=
  base64Alphabet.getD n 'A'

/-- Embeds `base64.b64encode` (standard base64 with '=' padding) on a byte
sequence, producing the ASCII string the source sends. -/
def b64encode : List Nat → String
  | [] => ""
  | [a] =>
      String.mk [b64Char (a / 4), b64Char (a % 4 * 16), '=', '=']
  | [a, b] =>
      String.mk [b64Char (a / 4), b64Char (a % 4 * 16 + b / 16),
                 b64Char (b % 16 * 4), '=']
  | a :: b :: c :: rest =>
      String.mk [b64Char (a / 4), b64Char (a % 4 * 16 + b / 16),
                 b64Char (b % 16 * 4 + c / 64), b64Char (c % 64)]
        ++ b64encode rest

/-- Embeds lines 222–235 of `Server.sasl_userpass`: the phase that handles
the `AUTHENTICATE +` challenge with mechanism `mech` already chosen.
`sentSoFar` are the lines this call has already sent, `line` the reply to
the last wait, `rest` the replies to any further waits.  For PLAIN the
payload `f"{username}\0{username}\0{password}"` is built, base64-encoded
and sent; a following `903` yields success; any other terminal state or an
unimplemented mechanism yields failure.  `none` models a run the source
cannot finish on this transcript (a wait never resolves, or
`line.params[0]` would raise `IndexError`). -/
def saslUserpassPlus (mech username password : String) (sentSoFar : List Line)
    (line : Line) (rest : List Line) :
    Option (List Line × Except SASLError SASLResult) :=
  if line.command = "AUTHENTICATE" then
    match line.params.head? with
    | none => none
    | some p0 =>
      if p0 = "+" then
        if mech = "PLAIN" then
          let auth_text := username ++ "\x00" ++ username ++ "\x00" ++ password
          let auth_b64 := b64encode (utf8Bytes auth_text)
          match rest with
          | [] => none
          | r :: _ =>
            some (sentSoFar ++ [build "AUTHENTICATE" [auth_b64]],
              Except.ok
                (if r.command = "903" then SASLResult.success else SASLResult.failure))
        else some (sentSoFar, Except.ok SASLResult.failure)
      else some (sentSoFar, Except.ok SASLResult.failure)
  else some (sentSoFar, Except.ok SASLResult.failure)

/-- Embeds `Server.sasl_userpass` (lines 184–235) as a function of the SASL
capability value, the credentials, and the reply transcript (the lines
successively returned by its `wait_for` calls).  Returns the AUTHENTICATE
lines sent and the result; `Except.error` embeds a raised
`SASLUnkownMechanismError`; `none` models a run the source cannot finish on
this transcript. -/
def sasl_userpass (saslValue : Option String) (username password : String)
    (replies : List Line) : Option (List Line × Except SASLError SASLResult) :=
  match userpassInitialMech saslValue with
  | Except.error e => some ([], Except.error e)
  | Except.ok mech =>
    let sent1 := [build "AUTHENTICATE" [mech]]
    match replies with
    | [] => none
    | r1 :: rest1 =>
      if r1.command = "907" then some (sent1, Except.ok SASLResult.already)
      else if r1.command = "908" then
        match r1.params.get? 1 with
        | none => none
        | some p1 =>
          match _common (splitComma p1) with
          | Except.error e => some (sent1, Except.error e)
          | Except.ok mech2 =>
            let sent2 := sent1 ++ [build "AUTHENTICATE" [mech2]]
            match rest1 with
            | [] => none
            | r2 :: rest2 => saslUserpassPlus mech2 username password sent2 r2 rest2
      else saslUserpassPlus mech username password sent1 r1 rest1

/-- Embeds `Server.sasl_external` (lines 163–182) as a function of the reply
transcript. -/
def sasl_external (replies : List Line) :
    Option (List Line × Except SASLError SASLResult) :=
  let sent1 := [build "AUTHENTICATE" ["EXTERNAL"]]
  match replies with
  | [] => none
  | r1 :: rest1 =>
    if r1.command = "907" then some (sent1, Except.ok SASLResult.already)
    else if r1.command = "908" then
      match r1.params.get? 1 with
      | none => none
      | some p1 =>
        some (sent1, Except.error (SASLError.unknownMechanism (splitComma p1)))
    else if r1.command = "AUTHENTICATE" then
      match r1.params.head? with
      | none => none
      | some p0 =>
        if p0 = "+" then
          let sent2 := sent1 ++ [build "AUTHENTICATE" ["+"]]
          match rest1 with
          | [] => none
          | r2 :: _ =>
            some (sent2, Except.ok
              (if r2.command = "903" then SASLResult.success else SASLResult.failure))
        else some (sent1, Except.ok SASLResult.failure)
    else some (sent1, Except.ok SASLResult.failure)

/-- Whatever `saslUserpassPlus` returns, the sent lines extend `sentSoFar`. -/
lemma saslUserpassPlus_out_append (mech u p : String) (sentSoFar : List Line)
    (line : Line) (rest out : List Line) (res : Except SASLError SASLResult)
    (h : saslUserpassPlus mech u p sentSoFar line rest = some (out, res)) :
    ∃ extra, out = sentSoFar ++ extra := by
  unfold saslUserpassPlus at h
  repeat' split at h
  all_goals simp_all
  all_goals exact ⟨_, h.1.symm⟩

/-- Whatever `sasl_userpass` returns when the initial mechanism selection
succeeds with `mech`, the first sent line is `AUTHENTICATE mech`. -/
lemma sasl_userpass_sent_head (saslValue : Option String) (u p mech : String)
    (replies out : List Line) (res : Except SASLError SASLResult)
    (hm : userpassInitialMech saslValue = Except.ok mech)
    (h : sasl_userpass saslValue u p replies = some (out, res)) :
    out.head? = some (build "AUTHENTICATE" [mech]) := by
  unfold sasl_userpass at h
  rw [hm] at h
  dsimp only at h
  cases replies with
  | nil => simp at h
  | cons r1 rest1 =>
    dsimp only at h
    by_cases h907 : r1.command = "907"
    · rw [if_pos h907] at h
      simp only [Option.some.injEq, Prod.mk.injEq] at h
      obtain ⟨rfl, rfl⟩ := h
      rfl
    · rw [if_neg h907] at h
      by_cases h908 : r1.command = "908"
      · rw [if_pos h908] at h
        cases hp : r1.params.get? 1 with
        | none => rw [hp] at h; simp at h
        | some p1 =>
          rw [hp] at h
          dsimp only at h
          cases hc : _common (splitComma p1) with
          | error e =>
            rw [hc] at h
            dsimp only at h
            simp only [Option.some.injEq, Prod.mk.injEq] at h
            obtain ⟨rfl, rfl⟩ := h
            rfl
          | ok mech2 =>
            rw [hc] at h
            dsimp only at h
            cases rest1 with
            | nil => simp at h
            | cons r2 rest2 =>
              dsimp only at h
              obtain ⟨extra, hout⟩ :=
                saslUserpassPlus_out_append mech2 u p _ r2 rest2 out res h
              rw [hout]
              rfl
      · rw [if_neg h908] at h
        obtain ⟨extra, hout⟩ :=
          saslUserpassPlus_out_append mech u p _ r1 rest1 out res h
        rw [hout]
        rfl

/-- C3: when the SASL capability's negotiated value is present,
`sasl_userpass` comma-splits it into the server-supported mechanism list and
selects the first mechanism of the priority order SCRAM-SHA-512,
SCRAM-SHA-256, SCRAM-SHA-1, PLAIN that appears in both lists (sending it as
the first AUTHENTICATE), and raises the unsupported-mechanism fault
(sending nothing) when no mechanism is common; e.g. value
"PLAIN,SCRAM-SHA-256" selects SCRAM-SHA-256, and advertised set
{OAUTHBEARER} faults. -/
theorem sasl_userpass_mechanism_selection :
    (∀ mechs : List String,
      ("SCRAM-SHA-512" ∈ mechs →
         _common mechs = Except.ok "SCRAM-SHA-512") ∧
      ("SCRAM-SHA-512" ∉ mechs → "SCRAM-SHA-256" ∈ mechs →
         _common mechs = Except.ok "SCRAM-SHA-256") ∧
      ("SCRAM-SHA-512" ∉ mechs → "SCRAM-SHA-256" ∉ mechs →
         "SCRAM-SHA-1" ∈ mechs →
         _common mechs = Except.ok "SCRAM-SHA-1") ∧
      ("SCRAM-SHA-512" ∉ mechs → "SCRAM-SHA-256" ∉ mechs →
         "SCRAM-SHA-1" ∉ mechs → "PLAIN" ∈ mechs →
         _common mechs = Except.ok "PLAIN") ∧
      ("SCRAM-SHA-512" ∉ mechs → "SCRAM-SHA-256" ∉ mechs →
         "SCRAM-SHA-1" ∉ mechs → "PLAIN" ∉ mechs →
         _common mechs = Except.error (SASLError.unknownMechanism mechs))) ∧
    (∀ v : String, userpassInitialMech (some v) = _common (splitComma v)) ∧
    (∀ (v u p mech : String) (replies out : List Line)
       (res : Except SASLError SASLResult),
       userpassInitialMech (some v) = Except.ok mech →
       sasl_userpass (some v) u p replies = some (out, res) →
       out.head? = some (build "AUTHENTICATE" [mech])) ∧
    (∀ (v u p : String) (e : SASLError) (replies : List Line),
       userpassInitialMech (some v) = Except.error e →
       sasl_userpass (some v) u p replies = some ([], Except.error e)) ∧
    _common (splitComma "PLAIN,SCRAM-SHA-256") = Except.ok "SCRAM-SHA-256" ∧
    _common (splitComma "OAUTHBEARER")
      = Except.error (SASLError.unknownMechanism ["OAUTHBEARER"]) := by
  refine ⟨?_, fun v => rfl, ?_, ?_, rfl, rfl⟩
  · intro mechs
    refine ⟨?_, ?_, ?_, ?_, ?_⟩
    · intro h1
      simp [_common, SASL_USERPASS_MECHANISMS, List.find?_cons, h1]
    · intro h1 h2
      simp [_common, SASL_USERPASS_MECHANISMS, List.find?_cons, h1, h2]
    · intro h1 h2 h3
      simp [_common, SASL_USERPASS_MECHANISMS, List.find?_cons, h1, h2, h3]
    · intro h1 h2 h3 h4
      simp [_common, SASL_USERPASS_MECHANISMS, List.find?_cons, h1, h2, h3, h4]
    · intro h1 h2 h3 h4
      simp [_common, SASL_USERPASS_MECHANISMS, List.find?_cons, h1, h2, h3, h4]
  · intro v u p mech replies out res hm h
    exact sasl_userpass_sent_head (some v) u p mech replies out res hm h
  · intro v u p e replies hm
    unfold sasl_userpass
    rw [hm]

/-- Witness for C3: value "PLAIN,SCRAM-SHA-256" (split: both common with the
priority list, SCRAM-SHA-512 absent) selects SCRAM-SHA-256; with value
"OAUTHBEARER" the whole `sasl_userpass` run faults without sending. -/
theorem sasl_userpass_mechanism_selection_witness :
    _common ["PLAIN", "SCRAM-SHA-256"] = Except.ok "SCRAM-SHA-256" ∧
    sasl_userpass (some "OAUTHBEARER") "u" "p" []
      = some ([], Except.error (SASLError.unknownMechanism ["OAUTHBEARER"])) := by
  constructor
  · exact (sasl_userpass_mechanism_selection.1 ["PLAIN", "SCRAM-SHA-256"]).2.1
      (by decide) (by decide)
  · exact sasl_userpass_mechanism_selection.2.2.2.1 "OAUTHBEARER" "u" "p"
      (SASLError.unknownMechanism ["OAUTHBEARER"]) [] rfl

/-- C4 counterexample: with the SASL capability value absent, the first
AUTHENTICATE attempt of `sasl_userpass` carries
`SASL_USERPASS_MECHANISMS[0]` = "SCRAM-SHA-512" (line 204), not "PLAIN" as
the claim states. -/
theorem sasl_userpass_pre32_not_plain_counterexample :
    sasl_userpass none "u" "p" [build "907" []]
      = some ([build "AUTHENTICATE" ["SCRAM-SHA-512"]],
              Except.ok SASLResult.already) ∧
    ("SCRAM-SHA-512" : String) ≠ "PLAIN" := by
  exact ⟨rfl, by decide⟩

/-- C4 (amended): when the SASL capability's negotiated value is absent
(pre-3.2 server), `sasl_userpass` optimistically picks the first mechanism
of the priority list — SCRAM-SHA-512, not PLAIN — as its first AUTHENTICATE
attempt, deferring mechanism negotiation to a possible 908 response: on a
908 carrying the server's mechanism list in its second parameter, the
mechanism is re-selected by `_common` and sent as a second AUTHENTICATE. -/
theorem sasl_userpass_pre32_picks_priority_head :
    userpassInitialMech none = Except.ok "SCRAM-SHA-512" ∧
    (∀ (u p : String) (replies out : List Line)
       (res : Except SASLError SASLResult),
       sasl_userpass none u p replies = some (out, res) →
       out.head? = some (build "AUTHENTICATE" ["SCRAM-SHA-512"])) ∧
    (∀ (u p p1 mech2 : String) (r1 : Line) (rest1 out : List Line)
       (res : Except SASLError SASLResult),
       r1.command = "908" → r1.params.get? 1 = some p1 →
       _common (splitComma p1) = Except.ok mech2 →
       sasl_userpass none u p (r1 :: rest1) = some (out, res) →
       out.take 2 = [build "AUTHENTICATE" ["SCRAM-SHA-512"],
                     build "AUTHENTICATE" [mech2]]) := by
  refine ⟨rfl, ?_, ?_⟩
  · intro u p replies out res h
    exact sasl_userpass_sent_head none u p "SCRAM-SHA-512" replies out res rfl h
  · intro u p p1 mech2 r1 rest1 out res h908 hp1 hc h
    unfold sasl_userpass at h
    have hm : userpassInitialMech none = Except.ok "SCRAM-SHA-512" := rfl
    rw [hm] at h
    dsimp only at h
    rw [if_neg (by rw [h908]; decide), if_pos h908, hp1] at h
    dsimp only at h
    rw [hc] at h
    dsimp only at h
    cases rest1 with
    | nil => simp at h
    | cons r2 rest2 =>
      dsimp only at h
      obtain ⟨extra, hout⟩ :=
        saslUserpassPlus_out_append mech2 u p _ r2 rest2 out res h
      rw [hout]
      rw [List.take_append_of_le_length (by simp)]
      rfl

/-- Witness for C4 (amended): a 908 listing only PLAIN makes the run send
AUTHENTICATE SCRAM-SHA-512 followed by AUTHENTICATE PLAIN. -/
theorem sasl_userpass_pre32_picks_priority_head_witness :
    List.take 2
        [build "AUTHENTICATE" ["SCRAM-SHA-512"], build "AUTHENTICATE" ["PLAIN"],
         build "AUTHENTICATE"
           [b64encode (utf8Bytes ("u" ++ "\x00" ++ "u" ++ "\x00" ++ "p"))]]
      = [build "AUTHENTICATE" ["SCRAM-SHA-512"], build "AUTHENTICATE" ["PLAIN"]] := by
  exact sasl_userpass_pre32_picks_priority_head.2.2 "u" "p" "PLAIN" "PLAIN"
    (build "908" ["x", "PLAIN"]) [build "AUTHENTICATE" ["+"], build "903" []]
    _ _ rfl rfl rfl rfl

/-- C5: with PLAIN selected, on receiving `AUTHENTICATE +` the payload built
before base64 encoding is exactly `username NUL username NUL password` (the
username serving as authzid); it is base64-encoded and sent as
`AUTHENTICATE <b64>`, and a following 903 yields Success.  For username
"alice" and password "secret" the pre-base64 payload is
`alice\0alice\0secret`, whose base64 encoding YWxpY2UAYWxpY2UAc2VjcmV0 is
what goes on the wire. -/
theorem sasl_userpass_plain_payload :
    (∀ u p : String,
      sasl_userpass (some "PLAIN") u p
          [build "AUTHENTICATE" ["+"], build "903" []]
        = some ([build "AUTHENTICATE" ["PLAIN"],
                 build "AUTHENTICATE"
                   [b64encode (utf8Bytes (u ++ "\x00" ++ u ++ "\x00" ++ p))]],
                Except.ok SASLResult.success)) ∧
    ("alice" ++ "\x00" ++ "alice" ++ "\x00" ++ "secret" : String)
      = "alice\x00alice\x00secret" ∧
    sasl_userpass (some "PLAIN") "alice" "secret"
        [build "AUTHENTICATE" ["+"], build "903" []]
      = some ([build "AUTHENTICATE" ["PLAIN"],
               build "AUTHENTICATE" ["YWxpY2UAYWxpY2UAc2VjcmV0"]],
              Except.ok SASLResult.success) :=
  ⟨fun _ _ => rfl, rfl, rfl⟩

/-- C8: for both SASL entry points, a 907 reply to the initial AUTHENTICATE
attempt yields the AlreadyDone result, regardless of the mechanism
attempted. -/
theorem sasl_907_already_done (r1 : Line) (rest : List Line)
    (h907 : r1.command = "907") :
    sasl_external (r1 :: rest)
      = some ([build "AUTHENTICATE" ["EXTERNAL"]],
              Except.ok SASLResult.already) ∧
    (∀ (saslValue : Option String) (u p mech : String),
       userpassInitialMech saslValue = Except.ok mech →
       sasl_userpass saslValue u p (r1 :: rest)
         = some ([build "AUTHENTICATE" [mech]],
                 Except.ok SASLResult.already)) := by
  constructor
  · unfold sasl_external
    dsimp only
    rw [if_pos h907]
  · intro saslValue u p mech hm
    unfold sasl_userpass
    rw [hm]
    dsimp only
    rw [if_pos h907]

/-- Witness for C8: the 907 line settles both entry points to AlreadyDone
(userpass attempting SCRAM-SHA-512, external attempting EXTERNAL). -/
theorem sasl_907_already_done_witness :
    sasl_external [build "907" []]
      = some ([build "AUTHENTICATE" ["EXTERNAL"]],
              Except.ok SASLResult.already) ∧
    sasl_userpass none "u" "p" [build "907" []]
      = some ([build "AUTHENTICATE" ["SCRAM-SHA-512"]],
              Except.ok SASLResult.already) := by
  have h := sasl_907_already_done (build "907" []) [] rfl
  exact ⟨h.1, h.2 none "u" "p" "SCRAM-SHA-512" rfl⟩

/-! ## Outbound write queue (`Server._write_queue` / `Server._write_lines`) -/

/-- Modelled from the spec: `PriorityLine` of `.interface` (module not
under `src/`): a (priority, line) pair whose ordering key is the priority
only; the priority levels form an enumerated total order, embedded as
`Nat`. -/
structure PriorityLine where
  priority : Nat
  line     : Line
deriving DecidableEq, Repr

/-- Modelled from the spec: one `get` of the priority write queue
(`asyncio.PriorityQueue[PriorityLine]` in `Server._write_queue`): remove
and return an entry of minimal priority, FIFO among equal priorities (the
queue never reorders items of equal priority).  The queue content is the
list of entries in enqueue order (`Server.send` appends). -/
def popMin : List PriorityLine → Option (PriorityLine × List PriorityLine)
  | [] => none
  | x :: xs =>
    match popMin xs with
    | none => some (x, [])
    | some (m, rest) =>
      if x.priority ≤ m.priority then some (x, xs) else some (m, x :: rest)

/-- Successive `get`s until the queue is empty, fuelled by the queue length:
the order in which the write loop (`Server._write_lines`, lines 112–124)
drains entries across its batches. -/
def drainFuel : Nat → List PriorityLine → List PriorityLine
  | 0, _ => []
  | n + 1, q =>
    match popMin q with
    | none => []
    | some (m, rest) => m :: drainFuel n rest

/-- Complete drain order of a queue. -/
def drainAll (q : List PriorityLine) : List PriorityLine :=
  drainFuel q.length q

lemma popMin_eq_none (q : List PriorityLine) (h : popMin q = none) : q = [] := by
  cases q with
  | nil => rfl
  | cons x xs =>
    exfalso
    unfold popMin at h
    cases hp : popMin xs with
    | none => rw [hp] at h; simp at h
    | some pr =>
      rw [hp] at h
      obtain ⟨m, rest⟩ := pr
      dsimp only at h
      by_cases hx : x.priority ≤ m.priority
      · rw [if_pos hx] at h; simp at h
      · rw [if_neg hx] at h; simp at h

/-- `popMin` removes the leftmost entry of minimal priority: the queue
splits as `pre ++ m :: suf` with every entry of `pre` strictly greater, the
rest is `pre ++ suf`, and `m` is a minimum of the whole queue. -/
lemma popMin_spec (q : List PriorityLine) (m : PriorityLine)
    (rest : List PriorityLine) (h : popMin q = some (m, rest)) :
    ∃ pre suf, q = pre ++ m :: suf ∧ rest = pre ++ suf ∧
      (∀ x ∈ pre, m.priority < x.priority) ∧
      (∀ x ∈ q, m.priority ≤ x.priority) := by
  induction q generalizing m rest with
  | nil => simp [popMin] at h
  | cons x xs ih =>
    unfold popMin at h
    cases hp : popMin xs with
    | none =>
      rw [hp] at h
      dsimp only at h
      have hxs := popMin_eq_none xs hp
      simp only [Option.some.injEq, Prod.mk.injEq] at h
      obtain ⟨rfl, rfl⟩ := h
      subst hxs
      exact ⟨[], [], rfl, rfl, by simp, by simp⟩
    | some pr =>
      rw [hp] at h
      obtain ⟨m', rest'⟩ := pr
      dsimp only at h
      obtain ⟨pre', suf', hq', hr', hstrict', hmin'⟩ := ih m' rest' hp
      by_cases hx : x.priority ≤ m'.priority
      · rw [if_pos hx] at h
        simp only [Option.some.injEq, Prod.mk.injEq] at h
        obtain ⟨rfl, rfl⟩ := h
        refine ⟨[], xs, rfl, rfl, by simp, ?_⟩
        intro y hy
        rcases List.mem_cons.mp hy with rfl | hy
        · exact le_refl _
        · exact hx.trans (hmin' y hy)
      · rw [if_neg hx] at h
        simp only [Option.some.injEq, Prod.mk.injEq] at h
        obtain ⟨rfl, rfl⟩ := h
        refine ⟨x :: pre', suf', by rw [hq']; rfl, by rw [hr']; rfl, ?_, ?_⟩
        · intro y hy
          rcases List.mem_cons.mp hy with rfl | hy
          · exact Nat.lt_of_not_le hx
          · exact hstrict' y hy
        · intro y hy
          rcases List.mem_cons.mp hy with rfl | hy
          · exact le_of_lt (Nat.lt_of_not_le hx)
          · exact hmin' y hy

lemma popMin_length (q : List PriorityLine) (m : PriorityLine)
    (rest : List PriorityLine) (h : popMin q = some (m, rest)) :
    q.length = rest.length + 1 := by
  obtain ⟨pre, suf, hq, hr, -, -⟩ := popMin_spec q m rest h
  subst hq; subst hr
  simp
  omega

lemma drainAll_cons (q : List PriorityLine) (m : PriorityLine)
    (rest : List PriorityLine) (h : popMin q = some (m, rest)) :
    drainAll q = m :: drainAll rest := by
  unfold drainAll
  rw [popMin_length q m rest h]
  simp [drainFuel, h]

lemma drainAll_perm_le (n : Nat) :
    ∀ q : List PriorityLine, q.length ≤ n → (drainAll q).Perm q := by
  induction n with
  | zero =>
    intro q hq
    have hnil : q = [] := List.eq_nil_of_length_eq_zero (Nat.le_zero.mp hq)
    subst hnil
    exact List.Perm.refl _
  | succ n ih =>
    intro q hq
    cases hp : popMin q with
    | none =>
      have hnil := popMin_eq_none q hp
      subst hnil
      exact List.Perm.refl _
    | some pr =>
      obtain ⟨m, rest⟩ := pr
      rw [drainAll_cons q m rest hp]
      have hlen : rest.length ≤ n := by
        have := popMin_length q m rest hp
        omega
      obtain ⟨pre, suf, hq1, hq2, -, -⟩ := popMin_spec q m rest hp
      refine (((ih rest hlen).cons m).trans ?_)
      rw [hq1, hq2]
      exact List.perm_middle.symm

lemma drainAll_sorted_le (n : Nat) :
    ∀ q : List PriorityLine, q.length ≤ n →
      (drainAll q).Pairwise (fun a b => a.priority ≤ b.priority) := by
  induction n with
  | zero =>
    intro q hq
    have hnil : q = [] := List.eq_nil_of_length_eq_zero (Nat.le_zero.mp hq)
    subst hnil
    simp [drainAll, drainFuel]
  | succ n ih =>
    intro q hq
    cases hp : popMin q with
    | none =>
      have hnil := popMin_eq_none q hp
      subst hnil
      simp [drainAll, drainFuel]
    | some pr =>
      obtain ⟨m, rest⟩ := pr
      rw [drainAll_cons q m rest hp]
      have hlen : rest.length ≤ n := by
        have := popMin_length q m rest hp
        omega
      refine List.Pairwise.cons ?_ (ih rest hlen)
      intro b hb
      obtain ⟨pre, suf, hq1, hq2, -, hmin⟩ := popMin_spec q m rest hp
      have hbrest : b ∈ rest := (drainAll_perm_le n rest hlen).mem_iff.mp hb
      apply hmin
      rw [hq1]
      rw [hq2] at hbrest
      rcases List.mem_append.mp hbrest with h1 | h2
      · exact List.mem_append.mpr (Or.inl h1)
      · exact List.mem_append.mpr (Or.inr (List.mem_cons_of_mem m h2))

lemma drainAll_filter_le (n : Nat) :
    ∀ q : List PriorityLine, q.length ≤ n → ∀ p : Nat,
      (drainAll q).filter (fun e => e.priority == p)
        = q.filter (fun e => e.priority == p) := by
  induction n with
  | zero =>
    intro q hq p
    have hnil : q = [] := List.eq_nil_of_length_eq_zero (Nat.le_zero.mp hq)
    subst hnil
    rfl
  | succ n ih =>
    intro q hq p
    cases hp : popMin q with
    | none =>
      have hnil := popMin_eq_none q hp
      subst hnil
      rfl
    | some pr =>
      obtain ⟨m, rest⟩ := pr
      rw [drainAll_cons q m rest hp]
      have hlen : rest.length ≤ n := by
        have := popMin_length q m rest hp
        omega
      obtain ⟨pre, suf, hq1, hq2, hstrict, -⟩ := popMin_spec q m rest hp
      by_cases hmp : m.priority = p
      · have hpre : pre.filter (fun e => e.priority == p) = [] := by
          apply List.filter_eq_nil_iff.mpr
          intro e he
          have := hstrict e he
          simp only [beq_iff_eq]
          omega
        rw [List.filter_cons_of_pos (by simp [hmp]), ih rest hlen p, hq1, hq2]
        simp [List.filter_append, hpre, List.filter_cons, hmp]
      · have hm : ((fun e => e.priority == p) m) = false := by
          simp only [beq_iff_eq]
          exact decide_eq_false hmp
        rw [List.filter_cons_of_neg (by simp [hm]), ih rest hlen p, hq1, hq2]
        simp [List.filter_append, List.filter_cons, hm]

/-- C6: the write loop drains the priority queue in non-decreasing priority
order; entries of equal priority are drained in enqueue order (the filtered
subsequence at each priority is preserved verbatim), and nothing is lost or
duplicated (the drain order is a permutation of the enqueue order). -/
theorem write_queue_priority_stable_fifo (q : List PriorityLine) :
    (drainAll q).Pairwise (fun a b => a.priority ≤ b.priority) ∧
    (∀ p : Nat, (drainAll q).filter (fun e => e.priority == p)
        = q.filter (fun e => e.priority == p)) ∧
    (drainAll q).Perm q :=
  ⟨drainAll_sorted_le q.length q (le_refl _),
   fun p => drainAll_filter_le q.length q (le_refl _) p,
   drainAll_perm_le q.length q (le_refl _)⟩

/-! ## Connection teardown and pending waits -/

/-- The state of a wait's one-shot `Future`: pending, fulfilled with a
line, or failed with the connection-closed error. -/
inductive FutureState where
  | pending
  | resolvedLine (l : Line)
  | failedConnClosed
deriving DecidableEq, Repr

/-- Modelled from the spec: connection teardown (not under `src/`):
"tearing down the connection must fail every outstanding WaitRegistry entry
exactly once with a connection-closed error"; every registered entry's
future is set to the connection-closed failure and the registry is emptied.
Returns the (future id, final state) assignments and the emptied
registry. -/
def teardown (reg : List WaitEntry) : List (Nat × FutureState) × List WaitEntry :=
  (reg.map (fun e => (e.fid, FutureState.failedConnClosed)), [])

/-- A wait whose matcher matches none of the inbound lines survives the
whole read sequence. -/
lemma processLines_mem_of_never_match (reg : List WaitEntry) (ls : List Line)
    (e : WaitEntry) (hmem : e ∈ reg)
    (hno : ∀ l ∈ ls, e.matcher.matches l = false) :
    e ∈ (processLines reg ls).1 := by
  induction ls generalizing reg with
  | nil => exact hmem
  | cons l ls ih =>
    have h1 : e ∈ (resolveFirst reg l).1 :=
      resolveFirst_mem_of_no_match reg l e hmem (hno l (List.mem_cons_self l ls))
    exact ih (resolveFirst reg l).1 h1 (fun l' hl' => hno l' (List.mem_cons_of_mem l hl'))

/-- C9: if the connection is torn down while wait-registry entries are
pending, every pending entry's future is failed with the connection-closed
error, exactly once each (one assignment per entry, distinct futures failed
at most once), the registry is emptied, and a never-matched wait is still
pending at teardown and is resolved only there. -/
theorem teardown_fails_all_pending (reg : List WaitEntry) (ls : List Line)
    (e : WaitEntry) (hmem : e ∈ reg)
    (hnever : ∀ l ∈ ls, e.matcher.matches l = false) :
    e ∈ (processLines reg ls).1 ∧
    (teardown (processLines reg ls).1).1
      = (processLines reg ls).1.map
          (fun w => (w.fid, FutureState.failedConnClosed)) ∧
    (teardown (processLines reg ls).1).2 = [] ∧
    (teardown (processLines reg ls).1).1.length
      = (processLines reg ls).1.length ∧
    (((processLines reg ls).1.map (fun w => w.fid)).Nodup →
       ((teardown (processLines reg ls).1).1.map Prod.fst).Nodup) ∧
    (e.fid, FutureState.failedConnClosed) ∈ (teardown (processLines reg ls).1).1 := by
  have hsurv := processLines_mem_of_never_match reg ls e hmem hnever
  refine ⟨hsurv, rfl, rfl, List.length_map _ _, ?_, ?_⟩
  · intro hnd
    simpa [teardown, List.map_map, Function.comp] using hnd
  · exact List.mem_map_of_mem (fun w => (w.fid, FutureState.failedConnClosed)) hsurv

/-- Witness for C9: two pending waits (on 903 and 904), one inbound line
`905` matching neither; both remain pending, and teardown fails wait 0 with
the connection-closed error. -/
theorem teardown_fails_all_pending_witness :
    (⟨.numerics ["903"], 0⟩ : WaitEntry)
      ∈ (processLines [⟨.numerics ["903"], 0⟩, ⟨.numerics ["904"], 1⟩]
          [⟨"905", []⟩]).1 ∧
    ((0 : Nat), FutureState.failedConnClosed)
      ∈ (teardown (processLines [⟨.numerics ["903"], 0⟩, ⟨.numerics ["904"], 1⟩]
          [⟨"905", []⟩]).1).1 := by
  have h := teardown_fails_all_pending
    [⟨.numerics ["903"], 0⟩, ⟨.numerics ["904"], 1⟩] [⟨"905", []⟩]
    ⟨.numerics ["903"], 0⟩ (by decide) (by decide)
  exact ⟨h.1, h.2.2.2.2.2⟩
